import Mathlib

/-!
Shallow embedding of `src/networked_periodic_signal_quantizer.hpp`
(`NetworkedPeriodicSignalQuantizer<T>`).

Modelling decisions, all driven by the source:
* The periodic clock (`PeriodicSignal`), the stopwatch, the logger and the
  exponential moving average are external components (they live in
  `sbpt_generated_includes.hpp`, outside this repository's sources).  The
  result of `output_signal.process_and_get_signal()` is therefore an input
  `fired : Bool` to `update`; `output_signal.restart()` is recorded by a
  call counter `restart_count`; `average_received_server_states_size
  .add_sample(...)` is recorded by a call counter `ema_sample_count`
  (the claims only speak about whether and when these are invoked).
* `output_emitter.emit(emitted_value)` is recorded by appending the emitted
  `Option T` to the log `emissions`, preserving emission order.
* The deque `received_server_states` is a `List T`: `push_back` appends at
  the tail, `front`/`pop_front` read and drop the head.
* Logging statements have no effect on state and are omitted.
-/

namespace NPSQSpec

/-- The state of one `NetworkedPeriodicSignalQuantizer<T>` object, together
with the observable history of its external calls (`restart_count`,
`ema_sample_count`, `emissions`). -/
structure NPSQ (T : Type) where
  received_server_states : List T
  pushed_first_element : Bool
  was_empty_on_last_update : Bool
  total_emit_opportunities : Nat
  missed_emit_opportunities : Nat
  ema_sample_count : Nat
  restart_count : Nat
  emissions : List (Option T)
deriving Repr, DecidableEq

/-- The freshly constructed quantizer: `was_empty_on_last_update(false)` from
the constructor (line 103), `pushed_first_element = false` (line 119), both
counters zero (lines 199-200), empty deque, and no external calls yet. -/
def NPSQ.init (T : Type) : NPSQ T :=
  { received_server_states := []
    pushed_first_element := false
    was_empty_on_last_update := false
    total_emit_opportunities := 0
    missed_emit_opportunities := 0
    ema_sample_count := 0
    restart_count := 0
    emissions := [] }

/-- `push(const T &item)`, lines 127-142: unconditionally `push_back` the item;
on the first push ever, set `pushed_first_element` and call
`output_signal.restart()` (modelled by incrementing `restart_count`).
The stopwatch press and the logging calls touch no modelled state. -/
def NPSQ.push {T : Type} (q : NPSQ T) (item : T) : NPSQ T :=
  if q.pushed_first_element then
    { q with received_server_states := q.received_server_states ++ [item] }
  else
    { q with received_server_states := q.received_server_states ++ [item]
             pushed_first_element := true
             restart_count := q.restart_count + 1 }

/-- `update()`, lines 147-187, with the clock outcome
`output_signal.process_and_get_signal()` supplied as the input `fired`.
Each branch of the `if` chain lists exactly the mutations the corresponding
source path performs:
* lines 150-151: early return when nothing was ever pushed;
* line 153: the EMA is sampled (counted) before the clock is consulted;
* line 156: `total_emit_opportunities++` on a fire;
* lines 160-164: empty buffer: `missed_emit_opportunities++`, set
  `was_empty_on_last_update`, the emitted value stays `nullopt`;
* lines 165-171: `was_empty_on_last_update && size() < 2`: only
  `missed_emit_opportunities++`, emitted value stays `nullopt`;
* lines 172-178: otherwise take `front()` as the emitted value and
  `pop_front()` (head and tail of the list);
* line 185: `output_emitter.emit(emitted_value)` appends to `emissions`. -/
def NPSQ.update {T : Type} (q : NPSQ T) (fired : Bool) : NPSQ T :=
  if q.pushed_first_element = false then q
  else if fired = false then
    { q with ema_sample_count := q.ema_sample_count + 1 }
  else if q.received_server_states.isEmpty then
    { q with ema_sample_count := q.ema_sample_count + 1
             total_emit_opportunities := q.total_emit_opportunities + 1
             missed_emit_opportunities := q.missed_emit_opportunities + 1
             was_empty_on_last_update := true
             emissions := q.emissions ++ [none] }
  else if q.was_empty_on_last_update && decide (q.received_server_states.length < 2) then
    { q with ema_sample_count := q.ema_sample_count + 1
             total_emit_opportunities := q.total_emit_opportunities + 1
             missed_emit_opportunities := q.missed_emit_opportunities + 1
             emissions := q.emissions ++ [none] }
  else
    { q with ema_sample_count := q.ema_sample_count + 1
             total_emit_opportunities := q.total_emit_opportunities + 1
             received_server_states := q.received_server_states.tail
             emissions := q.emissions ++ [q.received_server_states.head?] }

/-- `get_missed_emit_percentage()`, lines 189-193.  The C++ computes in
`double`; the arithmetic is embedded over `ℚ` (the operands are exact
integers and the claims are about the exact formula and its range). -/
def NPSQ.get_missed_emit_percentage {T : Type} (q : NPSQ T) : ℚ :=
  if q.total_emit_opportunities = 0 then 0
  else (q.missed_emit_opportunities : ℚ) * 100 / (q.total_emit_opportunities : ℚ)

/-- The guard of the dequeuing branch of `update` (lines 172-178): the branch
runs exactly when the clock fired after a first push, the deque is non-empty,
and the warm-up gate `was_empty_on_last_update && size() < 2` is not taken. -/
def NPSQ.updateDequeues {T : Type} (q : NPSQ T) (fired : Bool) : Bool :=
  q.pushed_first_element && fired && !q.received_server_states.isEmpty &&
    !(q.was_empty_on_last_update && decide (q.received_server_states.length < 2))

/-- One call on the object's public interface: a `push(item)` or an `update()`
in which the periodic clock did (`fired = true`) or did not fire. -/
inductive Op (T : Type) where
  | push : T → Op T
  | update : Bool → Op T
deriving Repr, DecidableEq

/-- Execute one public call. -/
def NPSQ.step {T : Type} (q : NPSQ T) : Op T → NPSQ T
  | Op.push item => q.push item
  | Op.update fired => q.update fired

/-- Execute a sequence of public calls from an arbitrary state. -/
def runFrom {T : Type} (q : NPSQ T) (ops : List (Op T)) : NPSQ T :=
  ops.foldl NPSQ.step q

/-- Execute a sequence of public calls on a freshly constructed quantizer. -/
def run (T : Type) (ops : List (Op T)) : NPSQ T :=
  runFrom (NPSQ.init T) ops

/-- The items pushed by a call sequence, in push order. -/
def pushedItems {T : Type} : List (Op T) → List T
  | [] => []
  | Op.push item :: rest => item :: pushedItems rest
  | Op.update _ :: rest => pushedItems rest

section Lemmas

variable {T : Type}

/-- One public call never decreases either counter, and never increases the
missed counter by more than the total counter. -/
theorem step_counters (q : NPSQ T) (op : Op T) :
    q.total_emit_opportunities ≤ (q.step op).total_emit_opportunities ∧
    q.missed_emit_opportunities ≤ (q.step op).missed_emit_opportunities ∧
    (q.step op).missed_emit_opportunities + q.total_emit_opportunities ≤
      q.missed_emit_opportunities + (q.step op).total_emit_opportunities := by
  cases op with
  | push item =>
    simp only [NPSQ.step, NPSQ.push]
    split <;> simp
  | update fired =>
    simp only [NPSQ.step, NPSQ.update]
    split
    · omega
    · split
      · simp
      · split
        · simp; omega
        · split
          · simp; omega
          · simp

/-- Counter monotonicity and bounded drift along any run. -/
theorem runFrom_counters (ops : List (Op T)) (q : NPSQ T) :
    q.total_emit_opportunities ≤ (runFrom q ops).total_emit_opportunities ∧
    q.missed_emit_opportunities ≤ (runFrom q ops).missed_emit_opportunities ∧
    (runFrom q ops).missed_emit_opportunities + q.total_emit_opportunities ≤
      q.missed_emit_opportunities + (runFrom q ops).total_emit_opportunities := by
  induction ops generalizing q with
  | nil => simp [runFrom]
  | cons op rest ih =>
    have h1 := step_counters q op
    have h2 := ih (q.step op)
    simp only [runFrom, List.foldl_cons] at h2 ⊢
    omega

/-- In every reachable state, the missed counter is at most the total. -/
theorem run_missed_le_total (ops : List (Op T)) :
    (run T ops).missed_emit_opportunities ≤ (run T ops).total_emit_opportunities := by
  have h := runFrom_counters ops (NPSQ.init T)
  simp only [NPSQ.init, run] at h ⊢
  omega

/-- One public call preserves the hand-off ledger: the present values emitted
so far followed by the current buffer equal the items pushed so far. -/
theorem step_handoff (q : NPSQ T) (op : Op T) :
    ((q.step op).emissions.filterMap id) ++ (q.step op).received_server_states =
      (q.emissions.filterMap id) ++ q.received_server_states ++ pushedItems [op] := by
  cases op with
  | push item =>
    simp only [NPSQ.step, NPSQ.push, pushedItems]
    split <;> simp
  | update fired =>
    simp only [NPSQ.step, NPSQ.update, pushedItems]
    split
    · simp
    · split
      · simp
      · split
        · simp
        · split
          · simp
          · rename_i hpush hfired hne hgate
            cases hb : q.received_server_states with
            | nil => rw [hb] at hne; simp at hne
            | cons a l => simp [hb]

/-- The hand-off ledger along any run. -/
theorem runFrom_handoff (ops : List (Op T)) (q : NPSQ T) :
    ((runFrom q ops).emissions.filterMap id) ++ (runFrom q ops).received_server_states =
      (q.emissions.filterMap id) ++ q.received_server_states ++ pushedItems ops := by
  induction ops generalizing q with
  | nil => simp [runFrom, pushedItems]
  | cons op rest ih =>
    have h1 := step_handoff q op
    have h2 := ih (q.step op)
    simp only [runFrom, List.foldl_cons] at h2 ⊢
    rw [h2, h1]
    cases op <;> simp [pushedItems]

/-- A call leaves `pushed_first_element` true exactly when it was already true
or the call is a push. -/
theorem step_flag (q : NPSQ T) (op : Op T) :
    (q.step op).pushed_first_element =
      (q.pushed_first_element || !(pushedItems [op]).isEmpty) := by
  cases op with
  | push item =>
    simp only [NPSQ.step, NPSQ.push, pushedItems]
    split <;> simp_all
  | update fired =>
    simp only [NPSQ.step, NPSQ.update, pushedItems]
    split
    · simp
    · split
      · simp
      · split
        · simp
        · split
          · simp
          · simp

/-- `pushed_first_element` after a run: true iff it already was, or the run
pushed something. -/
theorem runFrom_flag (ops : List (Op T)) (q : NPSQ T) :
    (runFrom q ops).pushed_first_element =
      (q.pushed_first_element || !(pushedItems ops).isEmpty) := by
  induction ops generalizing q with
  | nil => simp [runFrom, pushedItems]
  | cons op rest ih =>
    have h1 := step_flag q op
    have h2 := ih (q.step op)
    simp only [runFrom, List.foldl_cons] at h2 ⊢
    rw [h2, h1]
    cases op with
    | push item => simp [pushedItems]
    | update fired => simp [pushedItems]

/-- A call preserves the invariant that the clock was restarted once if
something was pushed and never otherwise. -/
theorem step_restart (q : NPSQ T) (op : Op T)
    (h : q.restart_count = (if q.pushed_first_element then 1 else 0)) :
    (q.step op).restart_count =
      (if (q.step op).pushed_first_element then 1 else 0) := by
  cases op with
  | push item =>
    simp only [NPSQ.step, NPSQ.push]
    split <;> rename_i hp <;> simp [hp] at h ⊢ <;> omega
  | update fired =>
    simp only [NPSQ.step, NPSQ.update]
    split
    · exact h
    · split
      · simpa using h
      · split
        · simpa using h
        · split
          · simpa using h
          · simpa using h

/-- The restart invariant along any run. -/
theorem runFrom_restart (ops : List (Op T)) (q : NPSQ T)
    (h : q.restart_count = (if q.pushed_first_element then 1 else 0)) :
    (runFrom q ops).restart_count =
      (if (runFrom q ops).pushed_first_element then 1 else 0) := by
  induction ops generalizing q with
  | nil => simpa [runFrom] using h
  | cons op rest ih =>
    simp only [runFrom, List.foldl_cons] at ih ⊢
    exact ih (q.step op) (step_restart q op h)

end Lemmas

/-- C1: for every sequence of push and update calls starting from a freshly
constructed quantizer, `missed_emit_opportunities ≤ total_emit_opportunities`
at every point, and extending the sequence by further calls never decreases
either counter. -/
theorem claim_C1_counter_invariant (T : Type) (ops more : List (Op T)) :
    (run T ops).missed_emit_opportunities ≤ (run T ops).total_emit_opportunities ∧
    (run T ops).total_emit_opportunities ≤
      (run T (ops ++ more)).total_emit_opportunities ∧
    (run T ops).missed_emit_opportunities ≤
      (run T (ops ++ more)).missed_emit_opportunities := by
  have he : run T (ops ++ more) = runFrom (run T ops) more := by
    simp [run, runFrom, List.foldl_append]
  have h := runFrom_counters more (run T ops)
  refine ⟨run_missed_le_total ops, ?_, ?_⟩ <;> rw [he] <;> omega

/-- The trace refuting C2: push item 1; fire (emits 1, buffer empty); fire
(buffer empty, warm-up flag set); push 2; push 3; fire (two items buffered,
steady emission of 2 — the "successful emission while not in the
single-element-after-empty condition"); fire (buffer holds exactly [3]). -/
def c2ops : List (Op Nat) :=
  [Op.push 1, Op.update true, Op.update true, Op.push 2, Op.push 3,
   Op.update true, Op.update true]

/-- C2 evaluated at the failing trace: after the steady emission of item 2 the
warm-up flag is still `true` (the code never assigns it `false`), so the final
fire, which finds exactly one buffered item (3), emits "nothing" and counts a
miss instead of emitting 3 — contradicting the claimed clearing and the
source's own design comment (header lines 55-58: after consuming s1 down to
one buffered state, "we will consume s2"). -/
theorem claim_C2_flag_never_cleared :
    (run Nat c2ops).was_empty_on_last_update = true ∧
    (run Nat c2ops).emissions = [some 1, none, some 2, none] ∧
    (run Nat c2ops).received_server_states = [3] ∧
    (run Nat c2ops).missed_emit_opportunities = 2 ∧
    (run Nat c2ops).total_emit_opportunities = 4 := by decide

/-- The trace refuting C3: five update calls, each with the clock firing, and
no push ever. -/
def c3ops : List (Op Nat) := List.replicate 5 (Op.update true)

/-- C3 counterexample: with no pushes ever, five fired updates leave both
counters at 0 and emit nothing — not 5 and 5 as claimed — because `update`
returns before consulting the clock when `pushed_first_element` is false. -/
theorem claim_C3_counterexample :
    (run Nat c3ops).total_emit_opportunities = 0 ∧
    (run Nat c3ops).missed_emit_opportunities = 0 ∧
    (run Nat c3ops).emissions = [] ∧
    ¬ ((run Nat c3ops).total_emit_opportunities = 5 ∧
       (run Nat c3ops).missed_emit_opportunities = 5) := by decide

/-- C3 amended: if no push has ever occurred, driving `update()` through 5
clock fires is a no-op — the quantizer stays in its initial state, so both
counters remain 0 and nothing at all is emitted through the sink. -/
theorem claim_C3_amended (T : Type) :
    run T (List.replicate 5 (Op.update true)) = NPSQ.init T ∧
    (run T (List.replicate 5 (Op.update true))).emissions = [] :=
  ⟨rfl, rfl⟩

/-- C8: emission preserves arrival order — for every call sequence, the pushed
items are exactly the present values emitted so far (in order, no reordering,
no duplication) followed by the items still buffered; in particular the
emitted present values are an initial segment of the pushed items. -/
theorem claim_C8_fifo_handoff (T : Type) (ops : List (Op T)) :
    pushedItems ops =
      ((run T ops).emissions.filterMap id) ++ (run T ops).received_server_states := by
  have h := runFrom_handoff ops (NPSQ.init T)
  simp only [NPSQ.init, List.filterMap_nil, List.nil_append, run] at h ⊢
  exact h.symm

/-- C4: on an update in which the clock fires, with a non-empty buffer, the
warm-up flag true and fewer than two buffered items, the code increments the
miss counter (and the total, since the clock fired), emits "nothing", leaves
the buffer untouched and leaves the warm-up flag true. -/
theorem claim_C4_warmup_gate_misses (T : Type) (q : NPSQ T)
    (hp : q.pushed_first_element = true)
    (hne : q.received_server_states ≠ [])
    (hw : q.was_empty_on_last_update = true)
    (hlen : q.received_server_states.length < 2) :
    (q.update true).missed_emit_opportunities = q.missed_emit_opportunities + 1 ∧
    (q.update true).total_emit_opportunities = q.total_emit_opportunities + 1 ∧
    (q.update true).emissions = q.emissions ++ [none] ∧
    (q.update true).received_server_states = q.received_server_states ∧
    (q.update true).was_empty_on_last_update = true := by
  have hne' : q.received_server_states.isEmpty = false := by
    simpa [List.isEmpty_iff] using hne
  simp [NPSQ.update, hp, hne', hw, hlen]

/-- A concrete state satisfying the hypotheses of C4: warm-up flag set, one
buffered item. -/
def c4state : NPSQ Nat :=
  { received_server_states := [5]
    pushed_first_element := true
    was_empty_on_last_update := true
    total_emit_opportunities := 7
    missed_emit_opportunities := 3
    ema_sample_count := 9
    restart_count := 1
    emissions := [some 9, none] }

/-- C4 exercised at a concrete state. -/
theorem claim_C4_witness :
    (c4state.update true).missed_emit_opportunities =
      c4state.missed_emit_opportunities + 1 ∧
    (c4state.update true).total_emit_opportunities =
      c4state.total_emit_opportunities + 1 ∧
    (c4state.update true).emissions = c4state.emissions ++ [none] ∧
    (c4state.update true).received_server_states =
      c4state.received_server_states ∧
    (c4state.update true).was_empty_on_last_update = true :=
  claim_C4_warmup_gate_misses Nat c4state rfl (by decide) rfl (by decide)

/-- A call sequence with no push leaves a fresh quantizer in its initial
state. -/
theorem run_no_push_eq_init {T : Type} (ops : List (Op T))
    (h : ∀ item : T, Op.push item ∉ ops) :
    run T ops = NPSQ.init T := by
  induction ops with
  | nil => rfl
  | cons op rest ih =>
    cases op with
    | push item => exact ((h item (List.mem_cons_self _ _)).elim)
    | update fired =>
      exact ih (fun item hm => h item (List.mem_cons_of_mem _ hm))

/-- C5: if no push has ever occurred, the quantizer is still in its initial
state and a further `update` call — with or without a clock fire — changes
nothing: counters, buffer, emission log and EMA sample count all stay as they
were. -/
theorem claim_C5_update_before_push_noop (T : Type) (ops : List (Op T))
    (fired : Bool) (h : ∀ item : T, Op.push item ∉ ops) :
    run T ops = NPSQ.init T ∧
    (run T ops).update fired = run T ops := by
  have h0 := run_no_push_eq_init ops h
  refine ⟨h0, ?_⟩
  rw [h0]
  rfl

/-- C5 exercised on the sequence consisting of one fired update. -/
theorem claim_C5_witness :
    run Nat [Op.update true] = NPSQ.init Nat ∧
    (run Nat [Op.update true]).update true = run Nat [Op.update true] :=
  claim_C5_update_before_push_noop Nat [Op.update true] true
    (fun _ hm => Op.noConfusion (List.mem_singleton.mp hm))

/-- C6: in every reachable state, `get_missed_emit_percentage` is 0 when the
total counter is 0 and otherwise 100 × missed / total, and in either case the
result lies in [0, 100] (using `missed ≤ total` from the counter
invariant). -/
theorem claim_C6_percentage_range (T : Type) (ops : List (Op T)) :
    (run T ops).get_missed_emit_percentage =
      (if (run T ops).total_emit_opportunities = 0 then 0
       else ((run T ops).missed_emit_opportunities : ℚ) * 100 /
         ((run T ops).total_emit_opportunities : ℚ)) ∧
    0 ≤ (run T ops).get_missed_emit_percentage ∧
    (run T ops).get_missed_emit_percentage ≤ 100 := by
  have hmt := run_missed_le_total ops (T := T)
  refine ⟨rfl, ?_, ?_⟩
  · rw [NPSQ.get_missed_emit_percentage]
    split
    · norm_num
    · positivity
  · rw [NPSQ.get_missed_emit_percentage]
    split
    · norm_num
    · rename_i h
      have ht : (0 : ℚ) < ((run T ops).total_emit_opportunities : ℚ) := by
        exact_mod_cast Nat.pos_of_ne_zero h
      rw [div_le_iff₀ ht]
      have hc : ((run T ops).missed_emit_opportunities : ℚ) ≤
          ((run T ops).total_emit_opportunities : ℚ) := by exact_mod_cast hmt
      nlinarith

/-- C7: whenever the dequeuing branch of `update` runs (its guard
`updateDequeues` holds), the buffer has at least one item — at least two when
the warm-up flag is true — and the branch removes exactly one item, so
`pop_front` is never executed on an empty buffer. -/
theorem claim_C7_dequeue_guarded (T : Type) (q : NPSQ T) (fired : Bool)
    (h : q.updateDequeues fired = true) :
    1 ≤ q.received_server_states.length ∧
    (q.was_empty_on_last_update = true → 2 ≤ q.received_server_states.length) ∧
    (q.update fired).received_server_states.length + 1 =
      q.received_server_states.length := by
  simp only [NPSQ.updateDequeues, Bool.and_eq_true, Bool.not_eq_true',
    Bool.and_eq_false_iff, decide_eq_true_eq, decide_eq_false_iff_not] at h
  obtain ⟨⟨⟨hp, hf⟩, hne⟩, hgate⟩ := h
  have hlen1 : 1 ≤ q.received_server_states.length := by
    cases hb : q.received_server_states with
    | nil => rw [hb] at hne; simp at hne
    | cons a l => simp [hb]
  have hgate2 : q.was_empty_on_last_update = true →
      2 ≤ q.received_server_states.length := by
    intro hw
    rcases hgate with hg | hg
    · rw [hw] at hg; simp at hg
    · omega
  refine ⟨hlen1, hgate2, ?_⟩
  subst hf
  have hgate' : (q.was_empty_on_last_update &&
      decide (q.received_server_states.length < 2)) = false := by
    rcases hgate with hg | hg <;> simp [hg]
  simp [NPSQ.update, hp, hne, hgate', List.length_tail]
  omega

/-- A concrete state satisfying the hypotheses of C7: warm-up flag true, two
buffered items, clock firing. -/
def c7state : NPSQ Nat :=
  { received_server_states := [1, 2]
    pushed_first_element := true
    was_empty_on_last_update := true
    total_emit_opportunities := 6
    missed_emit_opportunities := 2
    ema_sample_count := 8
    restart_count := 1
    emissions := [some 0, none] }

/-- C7 exercised at a concrete state. -/
theorem claim_C7_witness :
    1 ≤ c7state.received_server_states.length ∧
    (c7state.was_empty_on_last_update = true →
      2 ≤ c7state.received_server_states.length) ∧
    (c7state.update true).received_server_states.length + 1 =
      c7state.received_server_states.length :=
  claim_C7_dequeue_guarded Nat c7state true (by decide)

/-- C9: `push` always succeeds — it appends exactly the pushed item at the
buffer tail, performs no emission, leaves both emit counters unchanged, and
calls `restart()` exactly when this is the first push; over any whole run from
construction, `restart()` has been called exactly once if anything was ever
pushed and never otherwise. -/
theorem claim_C9_push_contract (T : Type) (q : NPSQ T) (item : T)
    (ops : List (Op T)) :
    (q.push item).received_server_states = q.received_server_states ++ [item] ∧
    (q.push item).emissions = q.emissions ∧
    (q.push item).total_emit_opportunities = q.total_emit_opportunities ∧
    (q.push item).missed_emit_opportunities = q.missed_emit_opportunities ∧
    (q.push item).restart_count =
      (if q.pushed_first_element then q.restart_count else q.restart_count + 1) ∧
    (run T ops).restart_count = (if (pushedItems ops).isEmpty then 0 else 1) := by
  have hr := runFrom_restart ops (NPSQ.init T) (by simp [NPSQ.init])
  have hf := runFrom_flag ops (NPSQ.init T)
  refine ⟨?_, ?_, ?_, ?_, ?_, ?_⟩
  · simp only [NPSQ.push]; split <;> simp
  · simp only [NPSQ.push]; split <;> simp
  · simp only [NPSQ.push]; split <;> simp
  · simp only [NPSQ.push]; split <;> simp
  · simp only [NPSQ.push]; split <;> rename_i hp <;> simp [hp]
  · rw [run, hr, hf]
    have hi : (NPSQ.init T).pushed_first_element = false := rfl
    rw [hi, Bool.false_or]
    cases hE : (pushedItems ops).isEmpty <;> simp [hE]

/-- C10: the warm-up flag starts false at construction and becomes true only
through an update in which the clock fires and the buffer is found empty;
while it is still false, a fire that finds exactly one buffered item emits
that item (emptying the buffer) rather than missing. -/
theorem claim_C10_gate_only_after_empty (T : Type) (q p : NPSQ T) (x : T)
    (op : Op T)
    (hp : q.pushed_first_element = true)
    (hw : q.was_empty_on_last_update = false)
    (hb : q.received_server_states = [x]) :
    (NPSQ.init T).was_empty_on_last_update = false ∧
    (q.update true).emissions = q.emissions ++ [some x] ∧
    (q.update true).received_server_states = [] ∧
    ((p.step op).was_empty_on_last_update = true →
      p.was_empty_on_last_update = true ∨
      (op = Op.update true ∧ p.pushed_first_element = true ∧
        p.received_server_states = [])) := by
  refine ⟨rfl, ?_, ?_, ?_⟩
  · simp [NPSQ.update, hp, hw, hb]
  · simp [NPSQ.update, hp, hw, hb]
  · intro hset
    cases op with
    | push item =>
      simp only [NPSQ.step, NPSQ.push] at hset
      split at hset <;> simp_all
    | update fired =>
      simp only [NPSQ.step, NPSQ.update] at hset
      split at hset
      · exact Or.inl hset
      · split at hset
        · exact Or.inl hset
        · split at hset
          · rename_i hnp hnf hemp
            refine Or.inr ⟨?_, ?_, ?_⟩
            · simp only [Bool.not_eq_false] at hnf; rw [hnf]
            · simpa using hnp
            · simpa [List.isEmpty_iff] using hemp
          · split at hset
            · exact Or.inl (by simpa using hset)
            · exact Or.inl (by simpa using hset)

/-- A concrete state satisfying the hypotheses of C10: flag false, exactly one
buffered item. -/
def c10state : NPSQ Nat :=
  { received_server_states := [7]
    pushed_first_element := true
    was_empty_on_last_update := false
    total_emit_opportunities := 3
    missed_emit_opportunities := 1
    ema_sample_count := 4
    restart_count := 1
    emissions := [some 5, none, some 6] }

/-- C10 exercised at a concrete state (with the flag-setting characterization
instantiated at a fired update on that same state). -/
theorem claim_C10_witness :
    (NPSQ.init Nat).was_empty_on_last_update = false ∧
    (c10state.update true).emissions = c10state.emissions ++ [some 7] ∧
    (c10state.update true).received_server_states = [] ∧
    ((c10state.step (Op.update true)).was_empty_on_last_update = true →
      c10state.was_empty_on_last_update = true ∨
      ((Op.update true : Op Nat) = Op.update true ∧
        c10state.pushed_first_element = true ∧
        c10state.received_server_states = [])) :=
  claim_C10_gate_only_after_empty Nat c10state c10state 7 (Op.update true)
    rfl rfl rfl

end NPSQSpec
